import Mathlib

/-!
Shallow embedding of the local fallback route optimizer of the
basketroute front-end (`optimizeRoute`, src/src/services/api.ts,
lines 494-579), together with proofs about it.

Modelling choices:
* JS numbers (prices, distances) are modelled by an arbitrary linearly
  ordered commutative ring `α` (instantiated with `ℤ` in concrete
  computations); quantities are naturals, matching the data model's
  "integer ≥ 1".
* `Math.max(...list)` over an empty spread yields `-Infinity` in JS, and
  `-Infinity` then propagates through `+`, `-` and `×`; the type `JNum`
  adds the `-Infinity` and `NaN` points to `α` with the JS arithmetic
  rules for the operations the source performs.
* `Array.prototype.sort` with a numeric comparator is a stable sort
  (ES2019); `sortByKey` is a stable insertion sort ascending by a key,
  extensionally equal to it.
* A JS object keyed by strings enumerates canonical array-index keys
  first, in ascending numeric order, then the remaining keys in
  insertion order; `objectValues` models `Object.values` accordingly.
* The source signals its two failure cases with destructive toasts and
  an early return; they are modelled as `Except.error` values
  (`emptyItems` for "Please add items to your grocery list first",
  `noStoresInRange` for "No stores found within the specified radius").
-/

deriving instance DecidableEq for Except

namespace BasketRoute

/-- Catalog entry of a store: `{ price: number; available: boolean }`. -/
structure CatalogEntry (α : Type) where
  price : α
  available : Bool
deriving DecidableEq

/-- A candidate store as in the source's `Store` interface
(id, name, address, distance, items catalog keyed by item name). -/
structure Store (α : Type) where
  id : String
  name : String
  address : String
  distance : α
  items : List (String × CatalogEntry α)
deriving DecidableEq

/-- A grocery-list entry as in the source's `GroceryItem` interface. -/
structure GroceryItem where
  id : String
  name : String
  quantity : ℕ
  unit : String
deriving DecidableEq

/-- The inputs read by `optimizeRoute`: the grocery list, the candidate
store list (`sampleStores` in the source), the search radius and the
maximum store count.  `maxStores` is an integer because the source
passes it to `Array.prototype.slice`, whose negative-argument semantics
matter. -/
structure OptimizeRequest (α : Type) where
  items : List GroceryItem
  candidateStores : List (Store α)
  radius : α
  maxStores : ℤ
deriving DecidableEq

/-- Property access `store.items[n]` on the object literal catalog. -/
def catalogLookup {α : Type} (l : List (String × CatalogEntry α)) (n : String) :
    Option (CatalogEntry α) :=
  (l.find? (fun p => p.1 = n)).map (fun p => p.2)

/-- The guard `store.items[item.name]?.available` of the source. -/
def availTrue {α : Type} (s : Store α) (n : String) : Bool :=
  match catalogLookup s.items n with
  | some e => e.available
  | none => false

/-- JS numbers restricted to the values the optimizer can produce:
finite values, `-Infinity` (from `Math.max()` of an empty spread) and
`NaN` (from `-Infinity × 0`). -/
inductive JNum (α : Type) where
  | num (a : α)
  | negInf
  | nan
deriving DecidableEq

/-- JS addition on `JNum` (no `+Infinity` can arise in the source). -/
def JNum.add {α : Type} [Add α] : JNum α → JNum α → JNum α
  | nan, _ => nan
  | _, nan => nan
  | negInf, _ => negInf
  | num _, negInf => negInf
  | num a, num b => num (a + b)

/-- JS multiplication by a natural quantity: `-Infinity × 0 = NaN`,
`-Infinity × (n+1) = -Infinity`. -/
def JNum.mulNat {α : Type} [Mul α] [NatCast α] : JNum α → ℕ → JNum α
  | nan, _ => nan
  | negInf, 0 => nan
  | negInf, _ + 1 => negInf
  | num a, n => num (a * (n : α))

/-- JS subtraction of a finite value from a `JNum`. -/
def JNum.subFin {α : Type} [Sub α] : JNum α → α → JNum α
  | nan, _ => nan
  | negInf, _ => negInf
  | num a, b => num (a - b)

/-- `Math.max(...l)` over finite values: `-Infinity` on the empty
spread, otherwise the maximum. -/
def maxOfList {α : Type} [LinearOrder α] : List α → JNum α
  | [] => JNum.negInf
  | h :: t => JNum.num (t.foldl max h)

/-- Stable insertion of `x` behind every element whose key is strictly
smaller: the step of a stable ascending sort. -/
def insertByKey {α β : Type} [LinearOrder β] (key : α → β) (x : α) :
    List α → List α
  | [] => [x]
  | y :: ys => if key y < key x then y :: insertByKey key x ys else x :: y :: ys

/-- Stable sort ascending by `key`: the model of
`Array.prototype.sort((a, b) => key(a) - key(b))`, which is stable per
ES2019. -/
def sortByKey {α β : Type} [LinearOrder β] (key : α → β) : List α → List α
  | [] => []
  | x :: xs => insertByKey key x (sortByKey key xs)

/-- The numeric value of a decimal digit string, if it is one. -/
def decimalValue? (cs : List Char) : Option ℕ :=
  if cs ≠ [] ∧ cs.all Char.isDigit then
    some (cs.foldl (fun acc c => 10 * acc + (c.toNat - 48)) 0)
  else
    none

/-- A JS canonical array-index key: a decimal numeral without leading
zeros whose value is below `2^32 - 1`.  Such object keys are enumerated
before all other string keys, in ascending numeric order. -/
def canonicalIndex? (s : String) : Option ℕ :=
  match decimalValue? s.data with
  | none => none
  | some v =>
    if (s.data.head? = some '0' ∧ s.data.length ≠ 1) ∨ 4294967294 < v then
      none
    else
      some v

/-- One line pushed into a store's bucket:
`` `${item.quantity} ${item.unit} ${item.name}` ``. -/
structure BucketEntry where
  quantity : ℕ
  unit : String
  name : String
deriving DecidableEq

/-- One value of the source's `storeItemMap`:
`{ store; items; cost }`, keyed by `store.id`. -/
structure Bucket (α : Type) where
  store : Store α
  items : List BucketEntry
  cost : α
deriving DecidableEq

/-- One entry of a per-item option list: `{ store; price }` where
`price` is the line cost `catalog price × quantity`. -/
structure ItemOption (α : Type) where
  store : Store α
  price : α
deriving DecidableEq

/-- `Object.values` on `storeItemMap`: buckets whose key (the id of the
store the bucket was created for) is a canonical array index come
first, ascending by numeric value; the rest follow in insertion
order. -/
def objectValues {α : Type} (bs : List (Bucket α)) : List (Bucket α) :=
  sortByKey (fun b => (canonicalIndex? b.store.id).getD 0)
      (bs.filter (fun b => (canonicalIndex? b.store.id).isSome)) ++
    bs.filter (fun b => (canonicalIndex? b.store.id).isNone)

/-- `availableStores = sampleStores.filter(store => store.distance <= radius)`. -/
def availableStores {α : Type} [LinearOrder α] (req : OptimizeRequest α) :
    List (Store α) :=
  req.candidateStores.filter (fun s => s.distance ≤ req.radius)

/-- The last grocery-list entry with a given name.  The source rebuilds
`itemStoreMaps[item.name]` for every occurrence of the name, so the
list left in the map is the one built from the last occurrence. -/
def lastItemWithName {α : Type} (req : OptimizeRequest α) (n : String) :
    Option GroceryItem :=
  (req.items.filter (fun it => it.name = n)).getLast?

/-- The unsorted option list for item name `n` with quantity `qty`:
one entry per available store whose catalog marks `n` available, priced
at `catalog price × qty`. -/
def rawOptions {α : Type} [Mul α] [NatCast α] (stores : List (Store α))
    (n : String) (qty : ℕ) : List (ItemOption α) :=
  stores.filterMap (fun s =>
    match catalogLookup s.items n with
    | some e => if e.available then some ⟨s, e.price * (qty : α)⟩ else none
    | none => none)

/-- The final value of `itemStoreMaps[n]`: the option list built from
the last occurrence of `n` in the grocery list, stably sorted ascending
by price (`sort((a, b) => a.price - b.price)`). -/
def itemOptions {α : Type} [LinearOrderedCommRing α] (req : OptimizeRequest α)
    (n : String) : List (ItemOption α) :=
  match lastItemWithName req n with
  | none => []
  | some it =>
    sortByKey (fun o => o.price) (rawOptions (availableStores req) n it.quantity)

/-- Push one assigned item into `storeItemMap`: update the bucket keyed
by the chosen store's id if present (appending the line and adding the
line cost), otherwise append a fresh bucket. -/
def addToBuckets {α : Type} [Add α] (o : ItemOption α) (it : GroceryItem) :
    List (Bucket α) → List (Bucket α)
  | [] => [⟨o.store, [⟨it.quantity, it.unit, it.name⟩], o.price⟩]
  | b :: bs =>
    if b.store.id = o.store.id then
      { b with items := b.items ++ [⟨it.quantity, it.unit, it.name⟩],
               cost := b.cost + o.price } :: bs
    else
      b :: addToBuckets o it bs

/-- The assignment loop over the grocery list: each item whose option
list is non-empty goes to the head (cheapest) option's store; items
with an empty option list are skipped. -/
def bucketsAux {α : Type} [Add α] (f : String → List (ItemOption α)) :
    List GroceryItem → List (Bucket α) → List (Bucket α)
  | [], acc => acc
  | it :: rest, acc =>
    match f it.name with
    | [] => bucketsAux f rest acc
    | o :: _ => bucketsAux f rest (addToBuckets o it acc)

/-- The source's `storeItemMap` after the assignment loop. -/
def storeBuckets {α : Type} [LinearOrderedCommRing α]
    (req : OptimizeRequest α) : List (Bucket α) :=
  bucketsAux (itemOptions req) req.items []

/-- The cost accumulation of the assignment loop: for each item whose
option list is non-empty, add the head (cheapest) option's line cost. -/
def costAux {α : Type} [Add α] (f : String → List (ItemOption α)) :
    List GroceryItem → α → α
  | [], acc => acc
  | it :: rest, acc =>
    match f it.name with
    | [] => costAux f rest acc
    | o :: _ => costAux f rest (acc + o.price)

/-- The source's running `totalCost` accumulator: the cheapest line
cost of every item with a non-empty option list, accumulated over the
whole grocery list (it is never recomputed after truncation). -/
def totalCostAccum {α : Type} [LinearOrderedCommRing α]
    (req : OptimizeRequest α) : α :=
  costAux (itemOptions req) req.items 0

/-- `slice(0, e)` on an array of length `len` keeps this many leading
elements: `max (len + e) 0` for negative `e`, else `min e len`. -/
def jsSliceTake (len : ℕ) (e : ℤ) : ℕ :=
  if e < 0 then len - (-e).toNat else min e.toNat len

/-- The buckets enumerated by `Object.values` and stably sorted
ascending by store distance: `Object.values(storeItemMap).sort(...)`
before the `slice`. -/
def sortedBuckets {α : Type} [LinearOrderedCommRing α]
    (req : OptimizeRequest α) : List (Bucket α) :=
  sortByKey (fun b => b.store.distance) (objectValues (storeBuckets req))

/-- `routeStores`: the distance-sorted buckets truncated by
`slice(0, maxStores)`. -/
def routeStores {α : Type} [LinearOrderedCommRing α]
    (req : OptimizeRequest α) : List (Bucket α) :=
  (sortedBuckets req).take (jsSliceTake (sortedBuckets req).length req.maxStores)

/-- The prices used for the worst-case baseline of one item: the
catalog prices of `n` at the available stores marking it available. -/
def availablePrices {α : Type} [Zero α] (stores : List (Store α)) (n : String) :
    List α :=
  (stores.filter (fun s => availTrue s n)).map (fun s =>
    match catalogLookup s.items n with
    | some e => e.price
    | none => 0)

/-- The source's `expensiveStoreCost` reduce: for every grocery-list
entry, `Math.max(...)` of the available prices times the quantity,
accumulated from `0`.  `Math.max()` of an empty spread is
`-Infinity`. -/
def worstCaseCost {α : Type} [LinearOrderedCommRing α]
    (req : OptimizeRequest α) : JNum α :=
  req.items.foldl
    (fun acc it =>
      acc.add ((maxOfList (availablePrices (availableStores req) it.name)).mulNat
        it.quantity))
    (JNum.num 0)

/-- The `ShoppingRoute` object passed to `setRoute`. -/
structure RouteResult (α : Type) where
  stores : List (Store α)
  totalCost : α
  totalDistance : α
  savings : JNum α
deriving DecidableEq

/-- The two early-return failure cases of `optimizeRoute`. -/
inductive OptError where
  | emptyItems
  | noStoresInRange
deriving DecidableEq

/-- The route object built once both guards pass. -/
def computeRoute {α : Type} [LinearOrderedCommRing α]
    (req : OptimizeRequest α) : RouteResult α :=
  let route := routeStores req
  { stores := route.map (fun b => b.store)
    totalCost := totalCostAccum req
    totalDistance := route.foldl (fun acc b => acc + b.store.distance) 0
    savings := (worstCaseCost req).subFin (totalCostAccum req) }

/-- The whole of `optimizeRoute` (src/src/services/api.ts, lines
494-579): reject an empty grocery list, reject an empty in-range store
set, otherwise produce the route. -/
def optimize {α : Type} [LinearOrderedCommRing α] (req : OptimizeRequest α) :
    Except OptError (RouteResult α) :=
  if req.items = [] then
    Except.error OptError.emptyItems
  else if availableStores req = [] then
    Except.error OptError.noStoresInRange
  else
    Except.ok (computeRoute req)

/-- The store and line cost charged for a grocery-list entry: the head
of the (name-keyed) option list, exactly as the assignment loop reads
it. -/
def chargeOf {α : Type} [LinearOrderedCommRing α] (req : OptimizeRequest α)
    (it : GroceryItem) : Option (Store α × α) :=
  (itemOptions req it.name).head?.map (fun o => (o.store, o.price))

/-- The names of the grocery-list entries whose option list is empty:
the unfulfillable items. -/
def unfulfillableNames {α : Type} [LinearOrderedCommRing α]
    (req : OptimizeRequest α) : List String :=
  (req.items.filter (fun it => (itemOptions req it.name).isEmpty)).map
    (fun it => it.name)

/-! Helper lemmas about the stable sort. -/

theorem mem_insertByKey {α β : Type} [LinearOrder β] {key : α → β} {x a : α}
    {l : List α} : a ∈ insertByKey key x l ↔ a = x ∨ a ∈ l := by
  induction l with
  | nil => simp [insertByKey]
  | cons y ys ih =>
    rw [insertByKey]
    by_cases hc : key y < key x
    · rw [if_pos hc]
      simp only [List.mem_cons, ih]
      tauto
    · rw [if_neg hc]
      simp only [List.mem_cons]

theorem perm_insertByKey {α β : Type} [LinearOrder β] (key : α → β) (x : α)
    (l : List α) : (insertByKey key x l).Perm (x :: l) := by
  induction l with
  | nil => simp [insertByKey]
  | cons y ys ih =>
    rw [insertByKey]
    by_cases hc : key y < key x
    · rw [if_pos hc]
      exact (ih.cons y).trans (List.Perm.swap x y ys)
    · rw [if_neg hc]

theorem perm_sortByKey {α β : Type} [LinearOrder β] (key : α → β)
    (l : List α) : (sortByKey key l).Perm l := by
  induction l with
  | nil => simp [sortByKey]
  | cons x xs ih =>
    rw [sortByKey]
    exact (perm_insertByKey key x (sortByKey key xs)).trans (ih.cons x)

theorem mem_sortByKey {α β : Type} [LinearOrder β] {key : α → β} {a : α}
    {l : List α} : a ∈ sortByKey key l ↔ a ∈ l :=
  (perm_sortByKey key l).mem_iff

theorem pairwise_insertByKey {α β : Type} [LinearOrder β] {key : α → β}
    (x : α) {l : List α}
    (h : l.Pairwise (fun a b => key a ≤ key b)) :
    (insertByKey key x l).Pairwise (fun a b => key a ≤ key b) := by
  induction l with
  | nil => simp [insertByKey]
  | cons y ys ih =>
    rw [List.pairwise_cons] at h
    obtain ⟨hy, hys⟩ := h
    rw [insertByKey]
    by_cases hc : key y < key x
    · rw [if_pos hc, List.pairwise_cons]
      refine ⟨?_, ih hys⟩
      intro a ha
      rcases mem_insertByKey.mp ha with rfl | ha'
      · exact le_of_lt hc
      · exact hy a ha'
    · rw [if_neg hc, List.pairwise_cons]
      refine ⟨?_, List.pairwise_cons.mpr ⟨hy, hys⟩⟩
      intro a ha
      rcases List.mem_cons.mp ha with rfl | ha'
      · exact le_of_not_lt hc
      · exact le_trans (le_of_not_lt hc) (hy a ha')

theorem pairwise_sortByKey {α β : Type} [LinearOrder β] (key : α → β)
    (l : List α) :
    (sortByKey key l).Pairwise (fun a b => key a ≤ key b) := by
  induction l with
  | nil => simp [sortByKey]
  | cons x xs ih =>
    rw [sortByKey]
    exact pairwise_insertByKey x ih

/-! Helper lemmas about the optimizer's intermediate structures. -/

theorem mem_objectValues {α : Type} {b : Bucket α} {bs : List (Bucket α)}
    (h : b ∈ objectValues bs) : b ∈ bs := by
  rw [objectValues, List.mem_append] at h
  rcases h with h | h
  · exact List.mem_of_mem_filter (mem_sortByKey.mp h)
  · exact List.mem_of_mem_filter h

theorem mem_rawOptions {α : Type} [Mul α] [NatCast α] {stores : List (Store α)}
    {n : String} {qty : ℕ} {o : ItemOption α} :
    o ∈ rawOptions stores n qty ↔
      ∃ s ∈ stores, ∃ e, catalogLookup s.items n = some e ∧
        e.available = true ∧ o = ⟨s, e.price * (qty : α)⟩ := by
  rw [rawOptions, List.mem_filterMap]
  constructor
  · rintro ⟨s, hs, hsome⟩
    refine ⟨s, hs, ?_⟩
    rcases hcl : catalogLookup s.items n with _ | e <;> rw [hcl] at hsome
    · simp at hsome
    · by_cases hav : e.available = true
      · refine ⟨e, rfl, hav, ?_⟩
        simp only [hav, if_true] at hsome
        exact (Option.some.inj hsome).symm
      · simp only [hav, if_false] at hsome
        simp at hsome
  · rintro ⟨s, hs, e, hcl, hav, rfl⟩
    refine ⟨s, hs, ?_⟩
    rw [hcl]
    simp only [hav, if_true]

theorem store_mem_of_mem_itemOptions {α : Type} [LinearOrderedCommRing α]
    {req : OptimizeRequest α} {n : String} {o : ItemOption α}
    (h : o ∈ itemOptions req n) : o.store ∈ availableStores req := by
  rw [itemOptions] at h
  rcases hlast : lastItemWithName req n with _ | it
  · rw [hlast] at h
    exact absurd h (by simp)
  · rw [hlast] at h
    obtain ⟨s, hs, e, _, _, rfl⟩ := mem_rawOptions.mp (mem_sortByKey.mp h)
    exact hs

theorem dist_le_radius_of_mem_availableStores {α : Type} [LinearOrder α]
    {req : OptimizeRequest α} {s : Store α} (h : s ∈ availableStores req) :
    s.distance ≤ req.radius := by
  rw [availableStores, List.mem_filter] at h
  exact by simpa using h.2

theorem addToBuckets_store_inv {α : Type} [Add α] {P : Store α → Prop}
    {o : ItemOption α} {it : GroceryItem} {acc : List (Bucket α)}
    (ho : P o.store) (hacc : ∀ b ∈ acc, P b.store) :
    ∀ b ∈ addToBuckets o it acc, P b.store := by
  induction acc with
  | nil =>
    intro b hb
    rw [addToBuckets, List.mem_singleton] at hb
    subst hb
    exact ho
  | cons c cs ih =>
    intro b hb
    rw [addToBuckets] at hb
    by_cases hc : c.store.id = o.store.id
    · rw [if_pos hc, List.mem_cons] at hb
      rcases hb with rfl | hb
      · exact hacc c (List.mem_cons_self c cs)
      · exact hacc b (List.mem_cons_of_mem c hb)
    · rw [if_neg hc, List.mem_cons] at hb
      rcases hb with rfl | hb
      · exact hacc b (List.mem_cons_self b cs)
      · exact ih (fun b' hb' => hacc b' (List.mem_cons_of_mem c hb')) b hb

theorem bucketsAux_store_inv {α : Type} [Add α] {P : Store α → Prop}
    {f : String → List (ItemOption α)}
    (hf : ∀ n o, o ∈ f n → P o.store) :
    ∀ (l : List GroceryItem) (acc : List (Bucket α)),
      (∀ b ∈ acc, P b.store) → ∀ b ∈ bucketsAux f l acc, P b.store := by
  intro l
  induction l with
  | nil =>
    intro acc hacc b hb
    rw [bucketsAux] at hb
    exact hacc b hb
  | cons it rest ih =>
    intro acc hacc b hb
    rw [bucketsAux] at hb
    rcases hopt : f it.name with _ | ⟨o, os⟩
    · rw [hopt] at hb
      exact ih acc hacc b hb
    · rw [hopt] at hb
      refine ih _ ?_ b hb
      exact addToBuckets_store_inv (hf it.name o (hopt ▸ List.mem_cons_self o os))
        hacc

theorem storeBuckets_store_avail {α : Type} [LinearOrderedCommRing α]
    {req : OptimizeRequest α} {b : Bucket α} (hb : b ∈ storeBuckets req) :
    b.store ∈ availableStores req := by
  refine bucketsAux_store_inv ?_ req.items [] (by simp) b hb
  intro n o ho
  exact store_mem_of_mem_itemOptions ho

theorem mem_storeBuckets_of_mem_routeStores {α : Type} [LinearOrderedCommRing α]
    {req : OptimizeRequest α} {b : Bucket α} (hb : b ∈ routeStores req) :
    b ∈ storeBuckets req := by
  rw [routeStores] at hb
  have hb' : b ∈ sortedBuckets req := List.mem_of_mem_take hb
  rw [sortedBuckets] at hb'
  exact mem_objectValues (mem_sortByKey.mp hb')

theorem optimize_eq_ok_iff {α : Type} [LinearOrderedCommRing α]
    {req : OptimizeRequest α} {res : RouteResult α} :
    optimize req = Except.ok res ↔
      req.items ≠ [] ∧ availableStores req ≠ [] ∧ res = computeRoute req := by
  rw [optimize]
  by_cases h1 : req.items = []
  · rw [if_pos h1]
    simp [h1]
  · rw [if_neg h1]
    by_cases h2 : availableStores req = []
    · rw [if_pos h2]
      simp [h1, h2]
    · rw [if_neg h2]
      constructor
      · intro h
        exact ⟨h1, h2, (Except.ok.injEq _ _ ▸ h).symm⟩
      · rintro ⟨-, -, rfl⟩
        rfl

theorem bucketsAux_congr {α : Type} [Add α]
    {f g : String → List (ItemOption α)} :
    ∀ (l : List GroceryItem) (acc : List (Bucket α)),
      (∀ it ∈ l, f it.name = g it.name) →
      bucketsAux f l acc = bucketsAux g l acc := by
  intro l
  induction l with
  | nil => intro acc _; rfl
  | cons it rest ih =>
    intro acc h
    rw [bucketsAux, bucketsAux, h it (List.mem_cons_self it rest)]
    rcases g it.name with _ | ⟨o, os⟩
    · exact ih acc fun x hx => h x (List.mem_cons_of_mem it hx)
    · exact ih _ fun x hx => h x (List.mem_cons_of_mem it hx)

theorem bucketsAux_filter_skip {α : Type} [Add α]
    (f : String → List (ItemOption α)) :
    ∀ (l : List GroceryItem) (acc : List (Bucket α)),
      bucketsAux f (l.filter fun it => !(f it.name).isEmpty) acc =
        bucketsAux f l acc := by
  intro l
  induction l with
  | nil => intro acc; rfl
  | cons it rest ih =>
    intro acc
    rcases hopt : f it.name with _ | ⟨o, os⟩
    · rw [List.filter_cons_of_neg (by simp [hopt]), bucketsAux, hopt]
      exact ih acc
    · rw [List.filter_cons_of_pos (by simp [hopt]), bucketsAux, bucketsAux,
        hopt]
      exact ih _

theorem costAux_congr {α : Type} [Add α]
    {f g : String → List (ItemOption α)} :
    ∀ (l : List GroceryItem) (acc : α),
      (∀ it ∈ l, f it.name = g it.name) →
      costAux f l acc = costAux g l acc := by
  intro l
  induction l with
  | nil => intro acc _; rfl
  | cons it rest ih =>
    intro acc h
    rw [costAux, costAux, h it (List.mem_cons_self it rest)]
    rcases g it.name with _ | ⟨o, os⟩
    · exact ih acc fun x hx => h x (List.mem_cons_of_mem it hx)
    · exact ih _ fun x hx => h x (List.mem_cons_of_mem it hx)

theorem costAux_filter_skip {α : Type} [Add α]
    (f : String → List (ItemOption α)) :
    ∀ (l : List GroceryItem) (acc : α),
      costAux f (l.filter fun it => !(f it.name).isEmpty) acc =
        costAux f l acc := by
  intro l
  induction l with
  | nil => intro acc; rfl
  | cons it rest ih =>
    intro acc
    rcases hopt : f it.name with _ | ⟨o, os⟩
    · rw [List.filter_cons_of_neg (by simp [hopt]), costAux, hopt]
      exact ih acc
    · rw [List.filter_cons_of_pos (by simp [hopt]), costAux, costAux, hopt]
      exact ih _

theorem addToBuckets_entry_inv {α : Type} [Add α] {Q : BucketEntry → Prop}
    {o : ItemOption α} {it : GroceryItem} {acc : List (Bucket α)}
    (hit : Q ⟨it.quantity, it.unit, it.name⟩)
    (hacc : ∀ b ∈ acc, ∀ e ∈ b.items, Q e) :
    ∀ b ∈ addToBuckets o it acc, ∀ e ∈ b.items, Q e := by
  induction acc with
  | nil =>
    intro b hb e he
    rw [addToBuckets, List.mem_singleton] at hb
    subst hb
    rw [List.mem_singleton] at he
    subst he
    exact hit
  | cons c cs ih =>
    intro b hb e he
    rw [addToBuckets] at hb
    by_cases hc : c.store.id = o.store.id
    · rw [if_pos hc, List.mem_cons] at hb
      rcases hb with rfl | hb
      · rcases List.mem_append.mp he with he' | he'
        · exact hacc c (List.mem_cons_self c cs) e he'
        · rw [List.mem_singleton] at he'
          subst he'
          exact hit
      · exact hacc b (List.mem_cons_of_mem c hb) e he
    · rw [if_neg hc, List.mem_cons] at hb
      rcases hb with rfl | hb
      · exact hacc b (List.mem_cons_self b cs) e he
      · exact ih (fun b' hb' => hacc b' (List.mem_cons_of_mem c hb')) b hb e he

theorem bucketsAux_entry_inv {α : Type} [Add α] {Q : BucketEntry → Prop}
    {f : String → List (ItemOption α)} :
    ∀ (l : List GroceryItem) (acc : List (Bucket α)),
      (∀ it ∈ l, f it.name ≠ [] → Q ⟨it.quantity, it.unit, it.name⟩) →
      (∀ b ∈ acc, ∀ e ∈ b.items, Q e) →
      ∀ b ∈ bucketsAux f l acc, ∀ e ∈ b.items, Q e := by
  intro l
  induction l with
  | nil =>
    intro acc _ hacc b hb
    rw [bucketsAux] at hb
    exact hacc b hb
  | cons it rest ih =>
    intro acc hl hacc b hb
    rw [bucketsAux] at hb
    rcases hopt : f it.name with _ | ⟨o, os⟩
    · rw [hopt] at hb
      exact ih acc (fun x hx => hl x (List.mem_cons_of_mem it hx)) hacc b hb
    · rw [hopt] at hb
      refine ih _ (fun x hx => hl x (List.mem_cons_of_mem it hx)) ?_ b hb
      exact addToBuckets_entry_inv
        (hl it (List.mem_cons_self it rest) (by rw [hopt]; simp)) hacc

theorem itemOptions_filter_unful {α : Type} [LinearOrderedCommRing α]
    (req : OptimizeRequest α) (n : String) (hn : itemOptions req n ≠ []) :
    itemOptions
      { req with
        items := req.items.filter fun it => !(itemOptions req it.name).isEmpty }
      n = itemOptions req n := by
  have hlast :
      lastItemWithName
        { req with
          items :=
            req.items.filter fun it => !(itemOptions req it.name).isEmpty }
        n = lastItemWithName req n := by
    rw [lastItemWithName, lastItemWithName]
    congr 1
    show (req.items.filter fun it => !(itemOptions req it.name).isEmpty).filter
        (fun it => it.name = n) = req.items.filter fun it => it.name = n
    rw [List.filter_filter]
    apply List.filter_congr
    intro x _
    by_cases hxn : x.name = n
    · rcases hopts : itemOptions req n with _ | ⟨o, os⟩
      · exact absurd hopts hn
      · simp [hxn, hopts]
    · simp [hxn]
  rw [itemOptions, itemOptions, hlast]
  rfl

/-! Concrete test fixtures (numbers instantiated at `ℤ`). -/

/-- Store at distance 1 selling milk for 5 and bread for 1. -/
def stA : Store ℤ :=
  ⟨"1", "A", "addr a", 1, [("milk", ⟨5, true⟩), ("bread", ⟨1, true⟩)]⟩

/-- Store at distance 2 selling milk for 2 and bread for 5. -/
def stB : Store ℤ :=
  ⟨"2", "B", "addr b", 2, [("milk", ⟨2, true⟩), ("bread", ⟨5, true⟩)]⟩

/-- Milk is cheapest at the far store, bread at the near one;
`maxStores = 1` forces truncation of the far store. -/
def creq1 : OptimizeRequest ℤ :=
  ⟨[⟨"i1", "milk", 1, "pcs"⟩, ⟨"i2", "bread", 1, "pcs"⟩], [stA, stB], 10, 1⟩

/-- A single item stocked by no store, with one store in range. -/
def creq2 : OptimizeRequest ℤ :=
  ⟨[⟨"i1", "c", 1, "pcs"⟩], [stA], 10, 3⟩

/-- An empty grocery list with an in-range store. -/
def creq3 : OptimizeRequest ℤ :=
  ⟨[], [stA], 10, 3⟩

/-- Store with a canonically larger id and distance, listed first. -/
def stC : Store ℤ := ⟨"2", "C", "addr c", 2, [("milk", ⟨1, true⟩)]⟩

/-- Store with a canonically smaller id and distance, listed second. -/
def stD : Store ℤ := ⟨"1", "D", "addr d", 1, [("milk", ⟨1, true⟩)]⟩

/-- Both stores price milk identically, so the option sort sees a tie. -/
def creq4 : OptimizeRequest ℤ :=
  ⟨[⟨"i1", "milk", 1, "pcs"⟩], [stC, stD], 10, 3⟩

/-- Two items, two stores, truncated to one store. -/
def creq5 : OptimizeRequest ℤ :=
  ⟨[⟨"i1", "milk", 1, "pcs"⟩, ⟨"i2", "bread", 1, "pcs"⟩], [stA, stB], 10, 1⟩

/-- A one-item request used to exercise determinism. -/
def creq6 : OptimizeRequest ℤ :=
  ⟨[⟨"i1", "milk", 2, "pcs"⟩], [stA, stB], 5, 3⟩

/-- An empty grocery list with a non-empty candidate store list. -/
def creq7 : OptimizeRequest ℤ :=
  ⟨[], [stA, stB], 5, 3⟩

/-- A negative `maxStores` with two assigned stores. -/
def creq8 : OptimizeRequest ℤ :=
  ⟨[⟨"i1", "milk", 1, "pcs"⟩, ⟨"i2", "bread", 1, "pcs"⟩], [stA, stB], 10, -1⟩

/-- A zero `maxStores` with one assigned store. -/
def creq8z : OptimizeRequest ℤ :=
  ⟨[⟨"i1", "milk", 1, "pcs"⟩], [stA, stB], 10, 0⟩

/-- One fulfillable item and one unfulfillable item named "cav". -/
def creq9a : OptimizeRequest ℤ :=
  ⟨[⟨"i1", "milk", 1, "pcs"⟩, ⟨"i2", "cav", 1, "pcs"⟩], [stA], 10, 3⟩

/-- One fulfillable item and one unfulfillable item named "uno". -/
def creq9b : OptimizeRequest ℤ :=
  ⟨[⟨"i1", "milk", 1, "pcs"⟩, ⟨"i2", "uno", 1, "pcs"⟩], [stA], 10, 3⟩

/-- Two grocery-list entries with the same name and different
quantities. -/
def creq10 : OptimizeRequest ℤ :=
  ⟨[⟨"i1", "milk", 1, "pcs"⟩, ⟨"i2", "milk", 5, "pcs"⟩], [stA, stB], 10, 3⟩

/-- The first duplicate-name entry of `creq10` (quantity 1). -/
def cit1 : GroceryItem := ⟨"i1", "milk", 1, "pcs"⟩

/-- The second duplicate-name entry of `creq10` (quantity 5). -/
def cit2 : GroceryItem := ⟨"i2", "milk", 5, "pcs"⟩

/-- Ordering claimed by the spec for per-item option lists, modelled
from the spec's words for comparison with the source's actual order:
ascending line cost, ties broken by store distance ascending, then by
store id ascending. -/
def specOptionLe {α : Type} [LinearOrderedCommRing α]
    (a b : ItemOption α) : Bool :=
  decide (a.price < b.price) ||
    (decide (a.price = b.price) &&
      (decide (a.store.distance < b.store.distance) ||
        (decide (a.store.distance = b.store.distance) &&
          decide (a.store.id ≤ b.store.id))))

/-! Claim theorems. -/

/-- C1: the code keeps the pre-truncation cost accumulator.  On `creq1`
(milk cheapest at the far store B, bread at the near store A,
`maxStores = 1`), the result's `totalCost` is 3 — the accumulator over
both assigned items — although the only kept store's line items cost 1;
the claim requires `totalCost` to be recomputed over the kept stores'
items only. -/
theorem c1_totalCost_stale_after_truncation :
    optimize creq1 =
      Except.ok
        { stores := [stA], totalCost := 3, totalDistance := 1,
          savings := JNum.num 7 } ∧
    ((routeStores creq1).map (fun b => b.cost)).sum = 1 ∧ (3 : ℤ) ≠ 1 := by
  decide

/-- C2: the code computes the worst-case baseline with
`Math.max(...)` over an empty spread for an unfulfillable item, which
is `-Infinity`; on `creq2` (a single item stocked by no store) the
result's `savings` is `-Infinity`, not the 0 the claim requires. -/
theorem c2_savings_negInf_on_unfulfillable :
    optimize creq2 =
      Except.ok
        { stores := [], totalCost := 0, totalDistance := 0,
          savings := JNum.negInf } := by
  decide

/-- C3 (counterexample): the claim says the only failure mode is
`NoStoresInRangeError`, raised exactly when the items list is non-empty
and no candidate store is in range.  On `creq3` the items list is empty
and a store is in range, yet the call fails — with the empty-items
error, a second failure mode the claim denies. -/
theorem c3_counterexample_empty_items_error :
    creq3.items = [] ∧ availableStores creq3 ≠ [] ∧
    optimize creq3 = Except.error OptError.emptyItems := by
  decide

/-- C3 (amended): `optimize` fails with `noStoresInRange` exactly when
the items list is non-empty and no candidate store is within the
radius; the only other failure mode is that an empty items list is
rejected with the empty-items error instead of producing a result. -/
theorem c3_error_conditions {α : Type} [LinearOrderedCommRing α]
    (req : OptimizeRequest α) :
    (optimize req = Except.error OptError.noStoresInRange ↔
      req.items ≠ [] ∧ availableStores req = []) ∧
    (optimize req = Except.error OptError.emptyItems ↔ req.items = []) := by
  rw [optimize]
  by_cases h1 : req.items = []
  · rw [if_pos h1]
    simp [h1]
  · rw [if_neg h1]
    by_cases h2 : availableStores req = []
    · rw [if_pos h2]
      simp [h1, h2]
    · rw [if_neg h2]
      simp [h1, h2]

/-- C4 (counterexample): on `creq4` both stores price milk identically,
so the line costs tie.  The code's option list keeps the
`availableStores` order (store C, listed first, before store D), but
the claimed tie-break — distance ascending, then id ascending — would
put D (distance 1, id "1") before C (distance 2, id "2"): the code's
list is not ordered as the claim states. -/
theorem c4_counterexample_no_tiebreak :
    itemOptions creq4 "milk" = [⟨stC, 1⟩, ⟨stD, 1⟩] ∧
    specOptionLe (⟨stC, 1⟩ : ItemOption ℤ) ⟨stD, 1⟩ = false := by
  decide

/-- C4 (amended): the per-item option lists are sorted ascending by
line cost with ties left in `availableStores` order (the sort is
stable, with no further tie-break), and the truncation-phase bucket
list is sorted ascending by store distance with ties left in the
`Object.values` enumeration order of the bucket map. -/
theorem c4_sorted_orders {α : Type} [LinearOrderedCommRing α]
    (req : OptimizeRequest α) (n : String) :
    (itemOptions req n).Pairwise (fun a b => a.price ≤ b.price) ∧
    (routeStores req).Pairwise
      (fun a b => a.store.distance ≤ b.store.distance) := by
  constructor
  · rw [itemOptions]
    rcases lastItemWithName req n with _ | it
    · exact List.Pairwise.nil
    · exact pairwise_sortByKey _ _
  · have hp : (sortedBuckets req).Pairwise
        (fun a b : Bucket α => a.store.distance ≤ b.store.distance) := by
      rw [sortedBuckets]
      exact pairwise_sortByKey _ _
    refine List.Pairwise.sublist ?_ hp
    rw [routeStores]
    exact List.take_sublist _ _

/-- C6: the optimizer reads nothing but its request — it is a pure
function of the grocery list, the candidate stores, the radius and the
maximum store count (the `Math.random()` call in the repository lives
in the mock fallback of the remote `optimizeShoppingRoute`, not in this
local optimizer), so identical requests produce identical results. -/
theorem c6_deterministic {α : Type} [LinearOrderedCommRing α]
    (r₁ r₂ : OptimizeRequest α) (h : r₁ = r₂) :
    optimize r₁ = optimize r₂ := by
  rw [h]

/-- Witness for C6 at a concrete request. -/
theorem c6_deterministic_witness : optimize creq6 = optimize creq6 :=
  c6_deterministic creq6 creq6 rfl

/-- C7 (counterexample): the claim says an empty items list yields a
well-formed zero result and no error; on `creq7` (empty items,
non-empty stores) the code instead fails with the empty-items
error. -/
theorem c7_counterexample_empty_items :
    creq7.items = [] ∧ creq7.candidateStores ≠ [] ∧
    optimize creq7 = Except.error OptError.emptyItems := by
  decide

/-- C7 (amended): every request with an empty items list is rejected
with the empty-items error — no result is produced, whatever the
candidate stores are. -/
theorem c7_empty_items_error {α : Type} [LinearOrderedCommRing α]
    (req : OptimizeRequest α) (h : req.items = []) :
    optimize req = Except.error OptError.emptyItems := by
  rw [optimize, if_pos h]

/-- Witness for the amended C7 at a concrete request. -/
theorem c7_empty_items_error_witness :
    creq7.items = [] ∧ optimize creq7 = Except.error OptError.emptyItems :=
  ⟨by decide, c7_empty_items_error creq7 (by decide)⟩

theorem length_routeStores_le {α : Type} [LinearOrderedCommRing α]
    (req : OptimizeRequest α) (h : 0 ≤ req.maxStores) :
    (routeStores req).length ≤ req.maxStores.toNat := by
  rw [routeStores, List.length_take, jsSliceTake, if_neg (not_lt.mpr h)]
  exact le_trans (min_le_left _ _) (min_le_left _ _)

/-- C5: whenever the optimizer returns a result (and `maxStores` and
`radius` are positive), at most `maxStores` stores are selected and
every selected store lies within the radius, even if candidate stores
beyond the radius were supplied. -/
theorem c5_selection_bounds {α : Type} [LinearOrderedCommRing α]
    (req : OptimizeRequest α) (res : RouteResult α)
    (hmax : 0 < req.maxStores) (hrad : 0 < req.radius)
    (hok : optimize req = Except.ok res) :
    ((res.stores.length : ℤ) ≤ req.maxStores ∧
      ∀ s ∈ res.stores, s.distance ≤ req.radius) := by
  obtain ⟨-, -, rfl⟩ := optimize_eq_ok_iff.mp hok
  have hstores : (computeRoute req).stores =
      (routeStores req).map (fun b => b.store) := rfl
  constructor
  · rw [hstores, List.length_map]
    calc ((routeStores req).length : ℤ)
        ≤ (req.maxStores.toNat : ℤ) := by
          exact_mod_cast length_routeStores_le req (le_of_lt hmax)
      _ = req.maxStores := Int.toNat_of_nonneg (le_of_lt hmax)
  · intro s hs
    rw [hstores, List.mem_map] at hs
    obtain ⟨b, hb, rfl⟩ := hs
    exact dist_le_radius_of_mem_availableStores
      (storeBuckets_store_avail (mem_storeBuckets_of_mem_routeStores hb))

/-- Witness for C5 at a concrete request with an out-of-range-free
store set and `maxStores = 1`. -/
theorem c5_selection_bounds_witness :
    (((computeRoute creq5).stores.length : ℤ) ≤ creq5.maxStores ∧
      stA.distance ≤ creq5.radius) := by
  have h := c5_selection_bounds creq5 (computeRoute creq5) (by decide)
    (by decide) (by decide)
  exact ⟨h.1, h.2 stA (by decide)⟩

/-- C8 (counterexample): the claim says any non-positive `maxStores`
yields an empty selection, but `slice(0, -1)` keeps all but the last
element: on `creq8` (`maxStores = -1`, two assigned stores) the
selection is `[stA]`, not empty. -/
theorem c8_counterexample_negative_maxStores :
    creq8.maxStores ≤ 0 ∧
    optimize creq8 = Except.ok (computeRoute creq8) ∧
    (computeRoute creq8).stores = [stA] ∧
    (computeRoute creq8).stores ≠ [] := by
  decide

/-- C8 (amended): `maxStores = 0` yields an empty selection; a
negative `maxStores` instead drops the last `|maxStores|` stores of
the distance-sorted list (JS `slice` semantics), which leaves a
non-empty selection whenever more than `|maxStores|` stores received
items. -/
theorem c8_zero_maxStores_empty {α : Type} [LinearOrderedCommRing α]
    (req : OptimizeRequest α) (res : RouteResult α)
    (hok : optimize req = Except.ok res) (hm : req.maxStores = 0) :
    res.stores = [] := by
  obtain ⟨-, -, rfl⟩ := optimize_eq_ok_iff.mp hok
  have hroute : routeStores req = [] := by
    rw [routeStores, hm, jsSliceTake]
    simp
  show (routeStores req).map (fun b => b.store) = []
  rw [hroute]
  rfl

/-- Witness for the amended C8 at a concrete request. -/
theorem c8_zero_maxStores_empty_witness :
    optimize creq8z = Except.ok (computeRoute creq8z) ∧
    (computeRoute creq8z).stores = [] :=
  ⟨by decide,
    c8_zero_maxStores_empty creq8z (computeRoute creq8z) (by decide)
      (by decide)⟩

/-- C9 (counterexample): the returned result carries no list of
unmatched item names: the requests `creq9a` and `creq9b` have
different unfulfillable items ("cav" versus "uno") yet produce
identical results, so no property of the result surfaces which items
were unfulfillable. -/
theorem c9_counterexample_not_surfaced :
    optimize creq9a = optimize creq9b ∧
    unfulfillableNames creq9a ≠ unfulfillableNames creq9b := by
  decide

/-- C9 (amended): unfulfillable items are excluded from the assignment
buckets and from the cost accumulator and do not abort the
optimization — removing them from the request changes neither the
buckets nor the accumulated cost, and no bucket line carries an
unfulfillable name — but they are not surfaced in the result: the
result object has no list of unmatched item names (its only trace is
`savings` collapsing to `-Infinity`). -/
theorem c9_unfulfillable_excluded {α : Type} [LinearOrderedCommRing α]
    (req : OptimizeRequest α) :
    (storeBuckets
        { req with
          items :=
            req.items.filter fun it => !(itemOptions req it.name).isEmpty } =
      storeBuckets req ∧
    totalCostAccum
        { req with
          items :=
            req.items.filter fun it => !(itemOptions req it.name).isEmpty } =
      totalCostAccum req ∧
    ∀ b ∈ storeBuckets req, ∀ e ∈ b.items, itemOptions req e.name ≠ []) := by
  have hcongr : ∀ it ∈ (req.items.filter
      fun it => !(itemOptions req it.name).isEmpty),
      itemOptions
        { req with
          items :=
            req.items.filter fun it => !(itemOptions req it.name).isEmpty }
        it.name = itemOptions req it.name := by
    intro it hit
    obtain ⟨-, hkeep⟩ := List.mem_filter.mp hit
    refine itemOptions_filter_unful req it.name ?_
    intro hnil
    rw [hnil] at hkeep
    simp at hkeep
  refine ⟨?_, ?_, ?_⟩
  · rw [storeBuckets, storeBuckets]
    show bucketsAux _ (req.items.filter
      fun it => !(itemOptions req it.name).isEmpty) [] = _
    rw [bucketsAux_congr _ _ hcongr]
    exact bucketsAux_filter_skip (itemOptions req) req.items []
  · rw [totalCostAccum, totalCostAccum]
    show costAux _ (req.items.filter
      fun it => !(itemOptions req it.name).isEmpty) 0 = _
    rw [costAux_congr _ _ hcongr]
    exact costAux_filter_skip (itemOptions req) req.items 0
  · refine bucketsAux_entry_inv req.items [] ?_ (by simp)
    intro it _ hne
    exact hne

/-- C10: duplicate-name grocery entries share one option list, keyed by
name and rebuilt per occurrence, so the list of the last same-name
entry wins: all same-name entries are charged at the same store, and
the charged line cost is that store's catalog price times the LAST
same-name entry's quantity, regardless of each entry's own quantity. -/
theorem c10_duplicate_names_last_wins {α : Type} [LinearOrderedCommRing α]
    (req : OptimizeRequest α) (it₁ it₂ : GroceryItem)
    (h₁ : it₁ ∈ req.items) (h₂ : it₂ ∈ req.items)
    (hname : it₁.name = it₂.name) :
    (chargeOf req it₁ = chargeOf req it₂ ∧
      ∀ s p, chargeOf req it₁ = some (s, p) →
        ∃ itL, lastItemWithName req it₁.name = some itL ∧
          ∃ e, catalogLookup s.items it₁.name = some e ∧
            e.available = true ∧ p = e.price * (itL.quantity : α)) := by
  constructor
  · rw [chargeOf, chargeOf, hname]
  · intro s p hc
    rw [chargeOf] at hc
    rcases hl : itemOptions req it₁.name with _ | ⟨o, t⟩
    · rw [hl] at hc
      simp at hc
    · rw [hl] at hc
      simp only [List.head?] at hc
      have hsp : (o.store, o.price) = (s, p) := Option.some.inj hc
      rcases hlast : lastItemWithName req it₁.name with _ | itL
      · rw [itemOptions, hlast] at hl
        exact absurd hl.symm (List.cons_ne_nil o t)
      · rw [itemOptions, hlast] at hl
        have hl' : sortByKey (fun o : ItemOption α => o.price)
            (rawOptions (availableStores req) it₁.name itL.quantity) =
            o :: t := hl
        have ho : o ∈ sortByKey (fun o : ItemOption α => o.price)
            (rawOptions (availableStores req) it₁.name itL.quantity) := by
          rw [hl']
          exact List.mem_cons_self o t
        obtain ⟨s', _, e, hcl, hav, heq⟩ :=
          mem_rawOptions.mp (mem_sortByKey.mp ho)
        have hs' : o.store = s := congrArg Prod.fst hsp
        have hp' : o.price = p := congrArg Prod.snd hsp
        refine ⟨itL, rfl, e, ?_, hav, ?_⟩
        · have hstore : o.store = s' := by rw [heq]
          rw [← hs', hstore]
          exact hcl
        · have hprice : o.price = e.price * (itL.quantity : α) := by rw [heq]
          rw [← hp', hprice]

/-- Witness for C10: in `creq10` the milk entries with quantities 1 and
5 are both charged at store B at line cost `2 × 5 = 10`, the last
entry's quantity. -/
theorem c10_duplicate_names_last_wins_witness :
    chargeOf creq10 cit1 = chargeOf creq10 cit2 ∧
    chargeOf creq10 cit1 = some (stB, 10) :=
  ⟨(c10_duplicate_names_last_wins creq10 cit1 cit2 (by decide) (by decide)
      rfl).1,
    by decide⟩

end BasketRoute
